import Mathlib

/-!
A shallow embedding of `enaml/core/dynamic_scope.py` (the tiered scope
resolver `DynamicScope` and the nonlocal accessor `Nonlocals`), together
with theorems checking the specification's claims about them.

Embedding decisions, shared by all definitions below:

* Attribute values are drawn from an abstract value domain `Value` (the
  source is dynamically typed; no claim depends on value structure).
* Python dicts keyed by strings become association lists with dict
  semantics (`dictGet` / `dictInsert`).
* An owner object together with its `parent` back-reference chain becomes
  a `List Node`: the head is the object itself, the tail its parent chain,
  and the empty list is an absent (`None`) owner.  The spec requires the
  chain to be acyclic and to terminate at a root, so finite lists model it.
* Each node exposes a dynamic-attribute surface: `attrs` is the probe-get
  mapping (a `getattr` that raises `AttributeError` is `none`) and
  `writable` lists the names for which `setattr` succeeds; a successful
  `setattr` stores the value into `attrs`.
* The scope listener is modelled by its presence (`Bool`) plus an explicit
  log of `dynamic_load` notifications returned by each operation; a
  notification records the node where the attribute was found, its hop
  distance from the start of the walk, the name and the value.
* The exceptions of the source become an explicit error type: `KeyError`
  on lookup is `nameNotFound`, `ValueError` from `Nonlocals.__call__` is
  `invalidLevel`, `AttributeError` from `__setattr__` is `attributeError`.
-/

namespace Enaml

/-- Abstract domain of Python attribute values. -/
abbrev Value := Nat

/-- One owner object of the hierarchy: its dynamic-attribute surface.
`attrs` is the probe-get mapping; `writable` holds the names a
`setattr` on this object accepts. -/
structure Node where
  attrs : List (String × Value)
  writable : List String
deriving DecidableEq, Repr

/-- Dict read: `dct[name]` guarded by `name in dct`, as an option. -/
def dictGet (name : String) : List (String × Value) → Option Value
  | [] => none
  | (k, v) :: rest => if k = name then some v else dictGet name rest

/-- Dict write: `dct[name] = v` (overwrite the existing binding, else append). -/
def dictInsert (name : String) (v : Value) : List (String × Value) → List (String × Value)
  | [] => [(name, v)]
  | (k, w) :: rest =>
      if k = name then (k, v) :: rest else (k, w) :: dictInsert name v rest

/-- One `dynamic_load(obj, name, value)` call on the listener: the node
where the attribute was found, its hop distance from the start of the
walk, the attribute name and the loaded value. -/
structure Notification where
  hop : Nat
  node : Node
  name : String
  value : Value
deriving DecidableEq, Repr

/-- The `level` argument of `Nonlocals.__call__`: either a Python `int`
or some value failing the `isinstance(level, int)` test. -/
inductive LevelArg where
  | int (n : Int)
  | notAnInt
deriving DecidableEq, Repr

/-- A key passed to `__contains__`: a string, or any non-string object
(the source rejects those with an `isinstance(name, basestring)` test). -/
inductive Key where
  | str (name : String)
  | nonStr
deriving DecidableEq, Repr

/-- The exceptions raised by the two classes. -/
inductive ScopeError where
  | nameNotFound (name : String)
  | invalidLevel (level : LevelArg)
  | attributeError (name : String)
deriving DecidableEq, Repr

/-- `DynamicScope.__init__` state: the owning object (with its parent
chain), the three mappings, the builtins mapping (the source reads it
from the required `__builtins__` key of `f_globals`), and whether a
listener is attached. -/
structure DynamicScope where
  obj : List Node
  identifiers : List (String × Value)
  overrides : List (String × Value)
  f_globals : List (String × Value)
  builtins : List (String × Value)
  listener : Bool
deriving DecidableEq, Repr

/-- The hierarchy-walk loop of `DynamicScope.__getitem__` (lines 115-125):
try `getattr(parent, name)`, on `AttributeError` advance to the parent,
on success return the owning node, its hop distance and the value. -/
def dsWalk : List Node → String → Option (Nat × Node × Value)
  | [], _ => none
  | parent :: rest, name =>
      match dictGet name parent.attrs with
      | some value => some (0, parent, value)
      | none =>
          match dsWalk rest name with
          | some (i, nd, v) => some (i + 1, nd, v)
          | none => none

/-- `DynamicScope.__getitem__`: overrides, then identifiers, then
`f_globals`, then its nested builtins, then the hierarchy walk (which
notifies the listener on success); `KeyError` if all fail. -/
def DynamicScope.getItem (s : DynamicScope) (name : String) :
    Except ScopeError Value × List Notification :=
  match dictGet name s.overrides with
  | some v => (.ok v, [])
  | none =>
  match dictGet name s.identifiers with
  | some v => (.ok v, [])
  | none =>
  match dictGet name s.f_globals with
  | some v => (.ok v, [])
  | none =>
  match dictGet name s.builtins with
  | some v => (.ok v, [])
  | none =>
  match dsWalk s.obj name with
  | some (i, nd, v) => (.ok v, if s.listener then [⟨i, nd, name, v⟩] else [])
  | none => (.error (.nameNotFound name), [])

/-- `DynamicScope.__setitem__`: `self._overrides[name] = value`. -/
def DynamicScope.setItem (s : DynamicScope) (name : String) (v : Value) :
    DynamicScope × List Notification :=
  ({ s with overrides := dictInsert name v s.overrides }, [])

/-- Did a lookup succeed (no `KeyError`)? -/
def isFound : Except ScopeError Value → Bool
  | .ok _ => true
  | .error _ => false

/-- `DynamicScope.__contains__`: non-strings are `False`; for a string the
listener is saved, set to `None`, the lookup performed with failure
mapped to `False`, and the listener restored in the `finally` block.
Returns the result, the scope state after the call, and the
notifications emitted during the call. -/
def DynamicScope.containsRun (s : DynamicScope) (k : Key) :
    Bool × DynamicScope × List Notification :=
  match k with
  | .str name =>
      let saved := s.listener
      let s1 : DynamicScope := { s with listener := false }
      let r := s1.getItem name
      (isFound r.1, { s1 with listener := saved }, r.2)
  | .nonStr => (false, s, [])

/-- `Nonlocals.__init__` state: the anchor object `_nls_obj` (with its
parent chain; empty list for `None`) and the `_nls_listener` presence. -/
structure Nonlocals where
  obj : List Node
  listener : Bool
deriving DecidableEq, Repr

/-- The loop of `Nonlocals.__call__` (lines 212-216): hop to the parent
while the target is not `None` and the offset has not reached the level.
`remaining` is `level - offset`; returns the final target and the number
of hops taken. -/
def callWalk : List Node → Nat → List Node × Nat
  | target, 0 => (target, 0)
  | [], _ + 1 => ([], 0)
  | _ :: rest, r + 1 =>
      let p := callWalk rest r
      (p.1, p.2 + 1)

/-- `Nonlocals.__call__(level)`: rejects non-`int` and negative levels
with `ValueError`, walks the chain, rejects with `ValueError` when the
walk stopped short of `level`, else returns a fresh accessor anchored
at the target with the same listener. -/
def Nonlocals.call (s : Nonlocals) (level : LevelArg) : Except ScopeError Nonlocals :=
  match level with
  | .notAnInt => .error (.invalidLevel .notAnInt)
  | .int l =>
      if l < 0 then .error (.invalidLevel (.int l))
      else if (callWalk s.obj l.toNat).2 ≠ l.toNat then .error (.invalidLevel (.int l))
      else .ok { obj := (callWalk s.obj l.toNat).1, listener := s.listener }

/-- The hierarchy-walk loop of `Nonlocals.__getitem__` (lines 261-271);
textually the same loop as in `DynamicScope.__getitem__`, embedded
separately so the duplication claim is a theorem, not a definition. -/
def nlsWalk : List Node → String → Option (Nat × Node × Value)
  | [], _ => none
  | parent :: rest, name =>
      match dictGet name parent.attrs with
      | some value => some (0, parent, value)
      | none =>
          match nlsWalk rest name with
          | some (i, nd, v) => some (i + 1, nd, v)
          | none => none

/-- `Nonlocals.__getitem__`: walk from the anchor, notify the listener on
success, `KeyError` when the chain is exhausted. -/
def Nonlocals.getItem (s : Nonlocals) (name : String) :
    Except ScopeError Value × List Notification :=
  match nlsWalk s.obj name with
  | some (i, nd, v) => (.ok v, if s.listener then [⟨i, nd, name, v⟩] else [])
  | none => (.error (.nameNotFound name), [])

/-- The loop of `Nonlocals.__setitem__` (lines 291-297): try
`setattr(parent, name, value)` at each node, on `AttributeError` advance
to the parent; returns the updated chain, or `none` when exhausted. -/
def nlsSetWalk (name : String) (v : Value) : List Node → Option (List Node)
  | [] => none
  | parent :: rest =>
      if name ∈ parent.writable then
        some ({ parent with attrs := dictInsert name v parent.attrs } :: rest)
      else
        (nlsSetWalk name v rest).map (parent :: ·)

/-- `Nonlocals.__setitem__`: first accepting node takes the write,
`KeyError` when every node rejects it; the listener is never called. -/
def Nonlocals.setItem (s : Nonlocals) (name : String) (v : Value) :
    Except ScopeError Nonlocals × List Notification :=
  match nlsSetWalk name v s.obj with
  | some c => (.ok { s with obj := c }, [])
  | none => (.error (.nameNotFound name), [])

/-- `Nonlocals.__contains__`: same shape as `DynamicScope.__contains__`,
with the `_nls_listener` slot saved, cleared and restored. -/
def Nonlocals.containsRun (s : Nonlocals) (k : Key) :
    Bool × Nonlocals × List Notification :=
  match k with
  | .str name =>
      let saved := s.listener
      let s1 : Nonlocals := { s with listener := false }
      let r := s1.getItem name
      (isFound r.1, { s1 with listener := saved }, r.2)
  | .nonStr => (false, s, [])

/-- An assignment handled by `Nonlocals.__setattr__`, tagged by the
source's name test (line 238): `nlsObj` is an assignment to the reserved
name `_nls_obj` (carrying an owner object), `nlsListener` to
`_nls_listener` (carrying a listener), and `other` any non-reserved
attribute name with an ordinary value. -/
inductive SetAttrCall where
  | nlsObj (obj : List Node)
  | nlsListener (l : Bool)
  | other (name : String) (v : Value)

/-- `Nonlocals.__setattr__`: the two reserved names write directly into
`self.__dict__`, rebinding the slot; any other name is delegated to
`__setitem__` with `KeyError` converted to `AttributeError`. -/
def Nonlocals.setAttr (s : Nonlocals) (c : SetAttrCall) :
    Except ScopeError Nonlocals × List Notification :=
  match c with
  | .nlsObj newObj => (.ok { s with obj := newObj }, [])
  | .nlsListener l => (.ok { s with listener := l }, [])
  | .other name v =>
      match s.setItem name v with
      | (.ok t, notes) => (.ok t, notes)
      | (.error _, notes) => (.error (.attributeError name), notes)

/-! ### Helper lemmas -/

/-- Reading back a key just written returns the written value. -/
theorem dictGet_dictInsert (name : String) (v : Value) (d : List (String × Value)) :
    dictGet name (dictInsert name v d) = some v := by
  induction d with
  | nil => simp [dictGet, dictInsert]
  | cons kv rest ih =>
      obtain ⟨k, w⟩ := kv
      by_cases h : k = name <;> simp [dictGet, dictInsert, h, ih]

/-- The two hierarchy-walk loops (resolver fallback and accessor read)
compute the same function. -/
theorem dsWalk_eq_nlsWalk (c : List Node) (name : String) :
    dsWalk c name = nlsWalk c name := by
  induction c with
  | nil => rfl
  | cons parent rest ih =>
      cases h : dictGet name parent.attrs <;> simp [dsWalk, nlsWalk, h, ih]

/-- The walk finds the first node exposing the attribute: skipping a
clean `pre` segment, it stops at `nd` with hop count `pre.length`. -/
theorem nlsWalk_found (pre : List Node) (nd : Node) (post : List Node) (name : String)
    (v : Value) (hpre : ∀ m ∈ pre, dictGet name m.attrs = none)
    (hnd : dictGet name nd.attrs = some v) :
    nlsWalk (pre ++ nd :: post) name = some (pre.length, nd, v) := by
  induction pre with
  | nil => simp [nlsWalk, hnd]
  | cons m rest ih =>
      have hm : dictGet name m.attrs = none := hpre m (by simp)
      simp [nlsWalk, hm, ih (fun x hx => hpre x (by simp [hx]))]

/-- Characterization of the `__call__` loop: it drops `n` nodes, taking
`min n (length)` hops. -/
theorem callWalk_eq (c : List Node) (n : Nat) :
    callWalk c n = (c.drop n, min n c.length) := by
  induction n generalizing c with
  | zero => simp [callWalk]
  | succ r ih =>
      cases c with
      | nil => simp [callWalk]
      | cons a rest => simp [callWalk, ih, Nat.succ_min_succ]

/-- The set walk stops at the first accepting node, copying the earlier
nodes unchanged. -/
theorem nlsSetWalk_found (pre : List Node) (nd : Node) (post : List Node)
    (name : String) (v : Value)
    (hpre : ∀ m ∈ pre, name ∉ m.writable) (hnd : name ∈ nd.writable) :
    nlsSetWalk name v (pre ++ nd :: post) =
      some (pre ++ { nd with attrs := dictInsert name v nd.attrs } :: post) := by
  induction pre with
  | nil => simp [nlsSetWalk, hnd]
  | cons m rest ih =>
      have hm : name ∉ m.writable := hpre m (by simp)
      simp [nlsSetWalk, hm, ih (fun x hx => hpre x (by simp [hx]))]

/-- The set walk fails when every node rejects the write. -/
theorem nlsSetWalk_absent (c : List Node) (name : String) (v : Value)
    (h : ∀ m ∈ c, name ∉ m.writable) : nlsSetWalk name v c = none := by
  induction c with
  | nil => rfl
  | cons m rest ih =>
      simp [nlsSetWalk, h m (by simp), ih (fun x hx => h x (by simp [hx]))]

/-- A resolver lookup with the listener cleared emits no notification. -/
theorem getItem_snd_no_listener (s : DynamicScope) (name : String)
    (h : s.listener = false) : (s.getItem name).2 = [] := by
  unfold DynamicScope.getItem
  repeat' split
  all_goals simp_all

/-- An accessor lookup with the listener cleared emits no notification. -/
theorem nls_getItem_snd_no_listener (t : Nonlocals) (name : String)
    (h : t.listener = false) : (t.getItem name).2 = [] := by
  unfold Nonlocals.getItem
  split <;> simp [h]

/-! ### Claim theorems -/

/-- C1: `DynamicScope.__getitem__` follows the fixed precedence order
overrides > identifiers > globals > builtins > hierarchy walk: a hit in
a tier returns that tier's value regardless of any bindings in
lower-precedence tiers, and with all four tiers empty of the name the
walk's value is returned. -/
theorem resolve_precedence_order (s : DynamicScope) (name : String) :
    (∀ v, dictGet name s.overrides = some v → s.getItem name = (.ok v, [])) ∧
    (dictGet name s.overrides = none →
      ∀ v, dictGet name s.identifiers = some v → s.getItem name = (.ok v, [])) ∧
    (dictGet name s.overrides = none → dictGet name s.identifiers = none →
      ∀ v, dictGet name s.f_globals = some v → s.getItem name = (.ok v, [])) ∧
    (dictGet name s.overrides = none → dictGet name s.identifiers = none →
      dictGet name s.f_globals = none →
      ∀ v, dictGet name s.builtins = some v → s.getItem name = (.ok v, [])) ∧
    (dictGet name s.overrides = none → dictGet name s.identifiers = none →
      dictGet name s.f_globals = none → dictGet name s.builtins = none →
      ∀ i nd v, dsWalk s.obj name = some (i, nd, v) → (s.getItem name).1 = .ok v) := by
  refine ⟨fun v hv => ?_, fun h1 v hv => ?_, fun h1 h2 v hv => ?_,
    fun h1 h2 h3 v hv => ?_, fun h1 h2 h3 h4 i nd v hv => ?_⟩
  · simp [DynamicScope.getItem, hv]
  · simp [DynamicScope.getItem, h1, hv]
  · simp [DynamicScope.getItem, h1, h2, hv]
  · simp [DynamicScope.getItem, h1, h2, h3, hv]
  · simp [DynamicScope.getItem, h1, h2, h3, h4, hv]

/-- Closed instance of C1 at a scope binding `x` in all four tiers:
the overrides value wins. -/
theorem resolve_precedence_order_witness :
    DynamicScope.getItem ⟨[], [("x", 2)], [("x", 1)], [("x", 3)], [("x", 4)], false⟩ "x" =
      (.ok 1, []) :=
  (resolve_precedence_order ⟨[], [("x", 2)], [("x", 1)], [("x", 3)], [("x", 4)], false⟩
    "x").1 1 rfl

/-- C3: a resolver hit in any of the four local tiers emits no
notification; a name found only by the hierarchy walk notifies the
observer (when present) exactly once, with the first node holding the
attribute, the name and the value, and that value is returned. -/
theorem resolve_observer_discipline (s : DynamicScope) (name : String) :
    (((dictGet name s.overrides).isSome ∨ (dictGet name s.identifiers).isSome ∨
      (dictGet name s.f_globals).isSome ∨ (dictGet name s.builtins).isSome) →
        (s.getItem name).2 = []) ∧
    (dictGet name s.overrides = none → dictGet name s.identifiers = none →
      dictGet name s.f_globals = none → dictGet name s.builtins = none →
      ∀ pre nd post v, s.obj = pre ++ nd :: post →
        (∀ m ∈ pre, dictGet name m.attrs = none) →
        dictGet name nd.attrs = some v →
        (s.getItem name).2 = (if s.listener then [⟨pre.length, nd, name, v⟩] else []) ∧
        (s.getItem name).1 = .ok v) := by
  constructor
  · intro htier
    rcases htier with h | h | h | h <;>
      rcases Option.isSome_iff_exists.mp h with ⟨v, hv⟩ <;>
      cases h1 : dictGet name s.overrides <;>
      cases h2 : dictGet name s.identifiers <;>
      cases h3 : dictGet name s.f_globals <;>
      cases h4 : dictGet name s.builtins <;>
      simp_all [DynamicScope.getItem]
  · intro h1 h2 h3 h4 pre nd post v hobj hpre hnd
    have hw : dsWalk s.obj name = some (pre.length, nd, v) := by
      rw [hobj, dsWalk_eq_nlsWalk]
      exact nlsWalk_found pre nd post name v hpre hnd
    constructor <;> simp [DynamicScope.getItem, h1, h2, h3, h4, hw]

/-- Closed instance of C3: a walk-only hit with a listener attached
produces exactly one notification, carrying the found node. -/
theorem resolve_observer_discipline_witness :
    (DynamicScope.getItem ⟨[⟨[("c", 3)], []⟩], [], [], [], [], true⟩ "c").2 =
      [⟨0, ⟨[("c", 3)], []⟩, "c", 3⟩] :=
  ((resolve_observer_discipline ⟨[⟨[("c", 3)], []⟩], [], [], [], [], true⟩ "c").2
    rfl rfl rfl rfl [] ⟨[("c", 3)], []⟩ [] 3 rfl (by simp) rfl).1

/-- C5: on a name absent from all four local tiers, the resolver's
lookup equals the accessor's lookup anchored at the same owner with the
same listener — same value or `NameNotFound`, same notifications. -/
theorem walk_refinement (s : DynamicScope) (name : String)
    (h1 : dictGet name s.overrides = none) (h2 : dictGet name s.identifiers = none)
    (h3 : dictGet name s.f_globals = none) (h4 : dictGet name s.builtins = none) :
    s.getItem name = Nonlocals.getItem ⟨s.obj, s.listener⟩ name := by
  rcases hw : nlsWalk s.obj name with _ | ⟨i, nd, v⟩ <;>
    simp [DynamicScope.getItem, Nonlocals.getItem, h1, h2, h3, h4,
      dsWalk_eq_nlsWalk, hw]

/-- Closed instance of C5: resolver and accessor agree on a
walk-resolved name, notifications included. -/
theorem walk_refinement_witness :
    DynamicScope.getItem ⟨[⟨[("c", 3)], []⟩], [("a", 1)], [], [], [], true⟩ "c" =
      Nonlocals.getItem ⟨[⟨[("c", 3)], []⟩], true⟩ "c" :=
  walk_refinement ⟨[⟨[("c", 3)], []⟩], [("a", 1)], [], [], [], true⟩ "c" rfl rfl rfl rfl

/-- C7: `DynamicScope.__setitem__` writes into `overrides` only, always
succeeds, interacts with no observer, leaves the other tiers, the owner
and the listener unchanged, and a subsequent lookup of the name returns
the assigned value without notification. -/
theorem assign_write_isolation (s : DynamicScope) (name : String) (v : Value) :
    (s.setItem name v).2 = [] ∧
    (s.setItem name v).1.overrides = dictInsert name v s.overrides ∧
    (s.setItem name v).1.identifiers = s.identifiers ∧
    (s.setItem name v).1.f_globals = s.f_globals ∧
    (s.setItem name v).1.builtins = s.builtins ∧
    (s.setItem name v).1.obj = s.obj ∧
    (s.setItem name v).1.listener = s.listener ∧
    (s.setItem name v).1.getItem name = (.ok v, []) := by
  refine ⟨rfl, rfl, rfl, rfl, rfl, rfl, rfl, ?_⟩
  simp [DynamicScope.setItem, DynamicScope.getItem, dictGet_dictInsert]

/-- C8: the hierarchy walk short-circuits at the nearest node holding
the attribute: with two exposing nodes `a` (nearer) and `b` (deeper) in
the chain, both the accessor read and the resolver fallback return `a`'s
value and notify (when a listener is present) with `a`. -/
theorem walk_shortcircuit_nearest (pre : List Node) (a : Node) (mid : List Node)
    (b : Node) (post : List Node) (name : String) (va vb : Value) (lst : Bool)
    (hpre : ∀ m ∈ pre, dictGet name m.attrs = none)
    (ha : dictGet name a.attrs = some va)
    (_hb : dictGet name b.attrs = some vb) :
    Nonlocals.getItem ⟨pre ++ a :: (mid ++ b :: post), lst⟩ name =
      (.ok va, if lst then [⟨pre.length, a, name, va⟩] else []) ∧
    (∀ ids ovr gl bi,
      dictGet name ovr = none → dictGet name ids = none →
      dictGet name gl = none → dictGet name bi = none →
      DynamicScope.getItem ⟨pre ++ a :: (mid ++ b :: post), ids, ovr, gl, bi, lst⟩ name =
        (.ok va, if lst then [⟨pre.length, a, name, va⟩] else [])) := by
  have hw : nlsWalk (pre ++ a :: (mid ++ b :: post)) name = some (pre.length, a, va) :=
    nlsWalk_found pre a (mid ++ b :: post) name va hpre ha
  constructor
  · simp [Nonlocals.getItem, hw]
  · intro ids ovr gl bi h1 h2 h3 h4
    simp [DynamicScope.getItem, h1, h2, h3, h4, dsWalk_eq_nlsWalk, hw]

/-- Closed instance of C8: on a two-node chain both exposing `y`, the
nearer node's value is returned and notified. -/
theorem walk_shortcircuit_nearest_witness :
    Nonlocals.getItem ⟨[⟨[("y", 1)], []⟩, ⟨[("y", 2)], []⟩], true⟩ "y" =
      (.ok 1, [⟨0, ⟨[("y", 1)], []⟩, "y", 1⟩]) :=
  (walk_shortcircuit_nearest [] ⟨[("y", 1)], []⟩ [] ⟨[("y", 2)], []⟩ [] "y" 1 2 true
    (by simp) rfl rfl).1

/-- C2: `Nonlocals.__call__(n)` fails with `InvalidLevel` exactly when
`n` is not an `int`, is negative, or exceeds the length of the parent
chain (the walk stops short of `n` hops); on success the new accessor is
anchored `n` hops up and shares the listener. -/
theorem at_level_validation (s : Nonlocals) :
    (s.call .notAnInt = .error (.invalidLevel .notAnInt)) ∧
    (∀ n : Int, s.call (.int n) = .error (.invalidLevel (.int n)) ↔
      n < 0 ∨ (s.obj.length : Int) < n) ∧
    (∀ n : Int, 0 ≤ n → n ≤ (s.obj.length : Int) →
      s.call (.int n) = .ok ⟨s.obj.drop n.toNat, s.listener⟩) := by
  refine ⟨rfl, fun n => ?_, fun n h0 hle => ?_⟩
  · constructor
    · intro herr
      simp only [Nonlocals.call] at herr
      by_cases hneg : n < 0
      · exact Or.inl hneg
      · rw [if_neg hneg] at herr
        simp only [callWalk_eq] at herr
        by_cases hc : min n.toNat s.obj.length ≠ n.toNat
        · right; omega
        · rw [if_neg hc] at herr
          exact absurd herr (by simp)
    · intro hor
      simp only [Nonlocals.call]
      by_cases hneg : n < 0
      · rw [if_pos hneg]
      · rw [if_neg hneg]
        simp only [callWalk_eq]
        have hc : min n.toNat s.obj.length ≠ n.toNat := by omega
        rw [if_pos hc]
  · simp only [Nonlocals.call]
    rw [if_neg (not_lt.mpr h0)]
    simp only [callWalk_eq]
    have hc : ¬min n.toNat s.obj.length ≠ n.toNat := by omega
    rw [if_neg hc]

/-- Closed instance of C2 on a one-node chain: level 1 walks onto the
absent parent and succeeds; level 2 runs out of chain and fails. -/
theorem at_level_validation_witness :
    Nonlocals.call ⟨[⟨[], []⟩], true⟩ (.int 1) = .ok ⟨[], true⟩ ∧
    Nonlocals.call ⟨[⟨[], []⟩], true⟩ (.int 2) = .error (.invalidLevel (.int 2)) :=
  ⟨(at_level_validation ⟨[⟨[], []⟩], true⟩).2.2 1 (by decide) (by decide),
   ((at_level_validation ⟨[⟨[], []⟩], true⟩).2.1 2).mpr (by decide)⟩

/-- C4: `__contains__` on both classes never notifies the observer,
restores the component's state (listener included) on return, answers
`false` for non-string keys without resolving, and answers `false`
rather than failing for names absent everywhere. -/
theorem contains_observer_suspension (s : DynamicScope) (t : Nonlocals) (k : Key) :
    ((s.containsRun k).2.2 = [] ∧ (s.containsRun k).2.1 = s) ∧
    ((t.containsRun k).2.2 = [] ∧ (t.containsRun k).2.1 = t) ∧
    (k = .nonStr → (s.containsRun k).1 = false ∧ (t.containsRun k).1 = false) ∧
    (∀ name, k = .str name →
      dictGet name s.overrides = none → dictGet name s.identifiers = none →
      dictGet name s.f_globals = none → dictGet name s.builtins = none →
      dsWalk s.obj name = none → (s.containsRun k).1 = false) ∧
    (∀ name, k = .str name → nlsWalk t.obj name = none →
      (t.containsRun k).1 = false) := by
  refine ⟨⟨?_, ?_⟩, ⟨?_, ?_⟩, fun hk => ?_,
    fun name hk h1 h2 h3 h4 hw => ?_, fun name hk hw => ?_⟩
  · cases k with
    | str name => exact getItem_snd_no_listener { s with listener := false } name rfl
    | nonStr => rfl
  · cases k with
    | str name => rfl
    | nonStr => rfl
  · cases k with
    | str name => exact nls_getItem_snd_no_listener { t with listener := false } name rfl
    | nonStr => rfl
  · cases k with
    | str name => rfl
    | nonStr => rfl
  · subst hk; exact ⟨rfl, rfl⟩
  · subst hk
    simp [DynamicScope.containsRun, DynamicScope.getItem, isFound, h1, h2, h3, h4, hw]
  · subst hk
    simp [Nonlocals.containsRun, Nonlocals.getItem, isFound, hw]

/-- Closed instance of C4: probing a walk-reachable name through
`contains` emits no notification, restores the listener, and an absent
name answers `false`. -/
theorem contains_observer_suspension_witness :
    DynamicScope.containsRun ⟨[⟨[("c", 3)], []⟩], [], [], [], [], true⟩ (.str "c") =
      (true, ⟨[⟨[("c", 3)], []⟩], [], [], [], [], true⟩, []) ∧
    (Nonlocals.containsRun ⟨[⟨[("c", 3)], []⟩], true⟩ (.str "q")).1 = false := by
  constructor
  · have h := contains_observer_suspension ⟨[⟨[("c", 3)], []⟩], [], [], [], [], true⟩
      ⟨[], true⟩ (.str "c")
    have h1 := h.1.1
    have h2 := h.1.2
    exact Prod.ext rfl (Prod.ext h2 h1)
  · exact (contains_observer_suspension ⟨[], [], [], [], [], true⟩
      ⟨[⟨[("c", 3)], []⟩], true⟩ (.str "q")).2.2.2.2 "q" rfl rfl

/-- C6: `Nonlocals.__setitem__` gives the write to the first node of the
chain accepting it, copies the earlier (rejecting) nodes unchanged,
leaves the value readable on the accepting node, fails with
`NameNotFound` when every node rejects, and never notifies. -/
theorem accessor_set_first_acceptor (s : Nonlocals) (name : String) (v : Value) :
    (s.setItem name v).2 = [] ∧
    ((∀ m ∈ s.obj, name ∉ m.writable) →
      (s.setItem name v).1 = .error (.nameNotFound name)) ∧
    (∀ pre nd post, s.obj = pre ++ nd :: post →
      (∀ m ∈ pre, name ∉ m.writable) → name ∈ nd.writable →
      (s.setItem name v).1 =
        .ok ⟨pre ++ { nd with attrs := dictInsert name v nd.attrs } :: post, s.listener⟩ ∧
      dictGet name (dictInsert name v nd.attrs) = some v) := by
  refine ⟨?_, fun h => ?_,
    fun pre nd post hobj hpre hnd => ⟨?_, dictGet_dictInsert name v nd.attrs⟩⟩
  · rcases hw : nlsSetWalk name v s.obj with _ | c <;> simp [Nonlocals.setItem, hw]
  · simp [Nonlocals.setItem, nlsSetWalk_absent s.obj name v h]
  · have hw := nlsSetWalk_found pre nd post name v hpre hnd
    simp [Nonlocals.setItem, hobj, hw]

/-- Closed instance of C6: on chain A then B where A rejects `z` and B
accepts, the value lands on B and A is untouched. -/
theorem accessor_set_first_acceptor_witness :
    (Nonlocals.setItem ⟨[⟨[], []⟩, ⟨[], ["z"]⟩], true⟩ "z" 5).1 =
      .ok ⟨[⟨[], []⟩, ⟨[("z", 5)], ["z"]⟩], true⟩ :=
  ((accessor_set_first_acceptor ⟨[⟨[], []⟩, ⟨[], ["z"]⟩], true⟩ "z" 5).2.2
    [⟨[], []⟩] ⟨[], ["z"]⟩ [] rfl (by decide) (by decide)).1

/-- C9: `Nonlocals.__call__(0)` returns an accessor with the same anchor
and the same listener, so every subsequent lookup, write and membership
test gives the same results as on the original. -/
theorem at_level_zero_equiv (s : Nonlocals) :
    ∃ t : Nonlocals, s.call (.int 0) = .ok t ∧ t.obj = s.obj ∧ t.listener = s.listener ∧
      (∀ name, t.getItem name = s.getItem name) ∧
      (∀ name v, t.setItem name v = s.setItem name v) ∧
      (∀ k, t.containsRun k = s.containsRun k) := by
  obtain ⟨obj, lst⟩ := s
  refine ⟨⟨obj, lst⟩, ?_, rfl, rfl, fun _ => rfl, fun _ _ => rfl, fun _ => rfl⟩
  simp [Nonlocals.call, callWalk]

/-- C10: assigning the reserved names through `Nonlocals.__setattr__`
rebinds the accessor's own `_nls_obj` or `_nls_listener` slot without
walking or touching the owner chain and without notifying: the result
is the accessor re-anchored (or re-listened) wholesale. -/
theorem reserved_setattr_rebind (s : Nonlocals) (c : List Node) (l : Bool) :
    s.setAttr (.nlsObj c) = (.ok ⟨c, s.listener⟩, []) ∧
    s.setAttr (.nlsListener l) = (.ok ⟨s.obj, l⟩, []) :=
  ⟨rfl, rfl⟩

end Enaml
